import Mathlib

/-!
Verification of the fraud-classifier serving pipeline from the notebook
tutorial.ipynb (training feature construction, the BentoML service file
fraud_detection_service.py embedded in the notebook, and the model store
around bentoml.sklearn.save_model / bentoml.models.get).

Values held in a pandas DataFrame cell are modelled by Cell: a categorical
string, a numeric value (as Rat), or the canonical missing marker na
(standing for both np.nan and pd.NA, which the service canonicalises with
X.fillna(pd.NA)).  A pandas DataFrame built from a JSON array of records is
modelled as an explicit column list plus one association-list row per
record; a key absent from a row reads as the missing marker, exactly as
pd.DataFrame fills missing keys with NaN when the column exists.
-/

namespace FraudTutorial

inductive Cell where
  | str : String → Cell
  | na : Cell
  | num : Rat → Cell
deriving DecidableEq

/-- One input record: an association list from field name to cell value,
as produced from one JSON object of the request body. -/
abbrev Row := List (String × Cell)

/-- Reading a column from a record: a key absent from the record (but
present in the frame, e.g. the JSON null for R_emaildomain) reads as the
missing marker, as in pandas. -/
def getCell (r : Row) (c : String) : Cell :=
  (r.lookup c).getD Cell.na

structure DataFrame where
  cols : List String
  rows : List Row

inductive ServiceError where
  | validationError : String → ServiceError
  | unavailableError : ServiceError
deriving DecidableEq

/-- The seven categorical feature columns, in the order both the training
cell and the service select them: df[["ProductCD", "P_emaildomain",
"R_emaildomain", "card4", "M1", "M2", "M3"]]. -/
def featureCols : List String :=
  ["ProductCD", "P_emaildomain", "R_emaildomain", "card4", "M1", "M2", "M3"]

/-- Column selection df[[cols]]: fails (pandas KeyError, surfaced in the
specification error taxonomy as ValidationError carrying the offending
column name) when a requested column is absent from the frame. -/
def DataFrame.selectColumns (df : DataFrame) (cs : List String) :
    Except ServiceError DataFrame :=
  match cs.find? (fun c => decide (c ∉ df.cols)) with
  | some c => .error (.validationError c)
  | none => .ok ⟨cs, df.rows⟩

/-- Cell-level fillna: replace the missing marker by the given value. -/
def fillnaCell (marker : Cell) (v : Cell) : Cell :=
  if v = Cell.na then marker else v

def fillnaRow (marker : Cell) (r : Row) : Row :=
  r.map (fun kv => (kv.1, fillnaCell marker kv.2))

/-- DataFrame.fillna, as in X.fillna(pd.NA): canonicalise every missing
value to the missing marker. -/
def DataFrame.fillna (df : DataFrame) (marker : Cell) : DataFrame :=
  ⟨df.cols, df.rows.map (fillnaRow marker)⟩

/-- A fitted sklearn OneHotEncoder(handle_unknown="ignore"): the fitted
input column names (feature_names_in_) and, for each input column in
order, its fitted category list (categories_). -/
structure OneHotEncoder where
  featureNamesIn : List String
  categories : List (List Cell)

/-- One-hot encoding of a single value against one fitted category list:
an indicator per category; a value matching no category (an unknown
category under handle_unknown="ignore") yields the all-zero block instead
of an error. -/
def oneHotColumn (cats : List Cell) (v : Cell) : List Cell :=
  cats.map (fun c => Cell.num (if v = c then 1 else 0))

/-- enc.transform on one row of the seven categorical values, flattened to
the dense fixed-width encoding (toarray): the per-column indicator blocks
concatenated in fitted column order. -/
def OneHotEncoder.transformRow (enc : OneHotEncoder) (vals : List Cell) :
    List Cell :=
  (List.zipWith oneHotColumn enc.categories vals).flatten

def cellFeatureName : Cell → String
  | .str s => s
  | .na => "nan"
  | .num _ => "num"

/-- enc.get_feature_names_out(): one name per encoded column, formed from
the fitted input column name and the category, in the same order as the
indicator blocks of transformRow. -/
def OneHotEncoder.featureNamesOut (enc : OneHotEncoder) : List String :=
  (List.zipWith (fun c cats => cats.map (fun v => c ++ "_" ++ cellFeatureName v))
    enc.featureNamesIn enc.categories).flatten

/-- Serving-time feature construction, from the predict body of
fraud_detection_service.py: select the seven categorical columns,
canonicalise missing values (X.fillna(pd.NA)), one-hot encode each row,
then append the TransactionAmt column positionally
(X["TransactionAmt"] = df[["TransactionAmt"]].to_numpy(), where to_numpy
strips the index so the assignment aligns by position). -/
def serveFeatures (enc : OneHotEncoder) (df : DataFrame) :
    Except ServiceError (List (List Cell)) := do
  let X ← df.selectColumns featureCols
  let X := X.fillna Cell.na
  let encoded := X.rows.map (fun r => enc.transformRow (X.cols.map (getCell r)))
  let amt ← df.selectColumns ["TransactionAmt"]
  return List.zipWith (fun e r => e ++ [getCell r "TransactionAmt"]) encoded amt.rows

/-- Serving-time column layout of the assembled matrix: the encoded
columns named by get_feature_names_out, then TransactionAmt. -/
def serveFeatureNames (enc : OneHotEncoder) : List String :=
  enc.featureNamesOut ++ ["TransactionAmt"]

/-- Training-time feature construction, from the training cell: the same
selection, encoding and positional TransactionAmt append, without the
fillna canonicalisation step. -/
def trainFeatures (enc : OneHotEncoder) (df : DataFrame) :
    Except ServiceError (List (List Cell)) := do
  let X ← df.selectColumns featureCols
  let encoded := X.rows.map (fun r => enc.transformRow (X.cols.map (getCell r)))
  let amt ← df.selectColumns ["TransactionAmt"]
  return List.zipWith (fun e r => e ++ [getCell r "TransactionAmt"]) encoded amt.rows

/-- Training-time column layout of the assembled matrix, from the training
cell: columns=enc.get_feature_names_out(), then the TransactionAmt
assignment. -/
def trainFeatureNames (enc : OneHotEncoder) : List String :=
  enc.featureNamesOut ++ ["TransactionAmt"]

/-- Modelled from the spec: the saved classifier is invoked through a
BentoML runner with the batchable predict signature (batch_dim 0) that the
save_model call declares, and it is a binary classifier producing one
label in 0/1 per row of the matrix; the runner itself is external library
code absent from src. -/
def runnerPredictRun (p : List Cell → Fin 2) (M : List (List Cell)) :
    List (Fin 2) :=
  M.map p

/-- The predict API of the service: assemble the feature matrix, then
invoke the predictor runner once on it
(fraud_classifier_runner.predict.run(X)). -/
def predict (enc : OneHotEncoder) (p : List Cell → Fin 2) (df : DataFrame) :
    Except ServiceError (List (Fin 2)) :=
  (serveFeatures enc df).map (runnerPredictRun p)

inductive IODescriptor where
  | pandasDataFrame : IODescriptor
  | json : IODescriptor
deriving DecidableEq

structure ApiRoute where
  method : String
  route : String
  input : IODescriptor
  output : IODescriptor
deriving DecidableEq

/-- The route table declared by the service decorators: the single
declaration @svc.api(input=PandasDataFrame(), output=JSON(),
route="/fraud-classifier").  Modelled from the spec for the transport
detail the decorator leaves to the framework: the endpoint is HTTP
POST with a JSON array body and a JSON array response. -/
def svcApis : List ApiRoute :=
  [⟨"POST", "/fraud-classifier", IODescriptor.pandasDataFrame, IODescriptor.json⟩]

/-- Modelled from the spec: the versioned Artifact persisted by the model
store (the store itself is external BentoML code absent from src): the
predictor, the user labels and metadata, the custom objects bag (the
notebook stores the fitted encoder under the key ohe_encoder), and the
declared signature. -/
structure Artifact where
  predictor : List Cell → Fin 2
  labels : List (String × String)
  metadata : List (String × String)
  customObjects : List (String × OneHotEncoder)
  batchable : Bool
  batchDim : Nat

/-- Modelled from the spec: the model store state, newest entry first;
each entry is a name, a version number and the stored artifact. -/
abbrev ModelStore := List (String × Nat × Artifact)

def numVersions (st : ModelStore) (name : String) : Nat :=
  st.countP (fun e => decide (e.1 = name))

/-- Modelled from the spec: bentoml.sklearn.save_model persists the
artifact under a fresh version of the name, never overwriting an existing
version, and returns the new version tag. -/
def save_model (st : ModelStore) (name : String) (a : Artifact) :
    ModelStore × Nat :=
  ((name, numVersions st name, a) :: st, numVersions st name)

/-- Modelled from the spec: resolving an explicit name:version tag. -/
def loadTag (st : ModelStore) (name : String) (v : Nat) : Option Artifact :=
  (st.find? (fun e => decide (e.1 = name ∧ e.2.1 = v))).map (fun e => e.2.2)

/-- Modelled from the spec: resolving name:latest to the most recently
written version of the name, as bentoml.models.get("fraud_classifier:latest")
does. -/
def loadLatest (st : ModelStore) (name : String) : Option Artifact :=
  (st.find? (fun e => decide (e.1 = name))).map (fun e => e.2.2)

/-- Store well-formedness: every recorded version of a name is below the
number of versions of that name, as save_model maintains. -/
abbrev WFStore (st : ModelStore) : Prop :=
  ∀ e ∈ st, e.2.1 < numVersions st e.1

/-- The service built from a loaded artifact, as fraud_detection_service.py
builds it: the encoder is read from the custom objects bag under
ohe_encoder, the predictor becomes the runner; per the specification a
service whose preprocessor is not loaded refuses requests with
UnavailableError. -/
def serviceOf (a : Artifact) (df : DataFrame) :
    Except ServiceError (List (Fin 2)) :=
  match a.customObjects.lookup "ohe_encoder" with
  | some enc => predict enc a.predictor df
  | none => .error .unavailableError

/-- The full set of columns the service reads from the request frame: the
seven categorical columns, then TransactionAmt. -/
def requiredCols : List String :=
  featureCols ++ ["TransactionAmt"]

/-- A batch is valid when the frame carries every column the service
reads: the seven categorical columns and TransactionAmt. -/
abbrev ValidBatch (df : DataFrame) : Prop :=
  (∀ c ∈ featureCols, c ∈ df.cols) ∧ "TransactionAmt" ∈ df.cols

/-- The feature vector the pipeline assembles for one record. -/
def rowFeatures (enc : OneHotEncoder) (r : Row) : List Cell :=
  enc.transformRow (featureCols.map (fun c => fillnaCell Cell.na (getCell r c)))
    ++ [getCell r "TransactionAmt"]

/-- Modelled from the spec: a fitted state of the encoder; the Kaggle
training data and the notebook execution state are absent from src, so a
representative fitted encoder whose categories cover the walkthrough
example values stands in for enc after enc.fit(X). -/
def specFittedEncoder : OneHotEncoder :=
  ⟨featureCols,
   [[Cell.str "C", Cell.str "H", Cell.str "R", Cell.str "S", Cell.str "W"],
    [Cell.str "gmail.com", Cell.str "live.com", Cell.na],
    [Cell.str "gmail.com", Cell.str "live.com", Cell.na],
    [Cell.str "american express", Cell.str "discover", Cell.str "mastercard",
      Cell.str "visa"],
    [Cell.str "F", Cell.str "T", Cell.na],
    [Cell.str "F", Cell.str "T", Cell.na],
    [Cell.str "F", Cell.str "T", Cell.na]]⟩

/-- The record of the documented example POST body of the walkthrough. -/
def exampleRow : Row :=
  [("isFraud", Cell.num 0), ("TransactionAmt", Cell.num 495),
   ("ProductCD", Cell.str "W"), ("card4", Cell.str "visa"),
   ("P_emaildomain", Cell.str "live.com"), ("R_emaildomain", Cell.na),
   ("M1", Cell.str "T"), ("M2", Cell.str "T"), ("M3", Cell.str "T")]

/-- The single-record frame the transport layer builds from the example
POST body. -/
def exampleDF : DataFrame :=
  ⟨["isFraud", "TransactionAmt", "ProductCD", "card4", "P_emaildomain",
    "R_emaildomain", "M1", "M2", "M3"], [exampleRow]⟩

/-- The feature vector specFittedEncoder assembles for exampleRow: the
seven one-hot blocks in fitted order, then TransactionAmt. -/
def exampleFeatureRow : List Cell :=
  [Cell.num 0, Cell.num 0, Cell.num 0, Cell.num 0, Cell.num 1,
   Cell.num 0, Cell.num 1, Cell.num 0,
   Cell.num 0, Cell.num 0, Cell.num 1,
   Cell.num 0, Cell.num 0, Cell.num 0, Cell.num 1,
   Cell.num 0, Cell.num 1, Cell.num 0,
   Cell.num 0, Cell.num 1, Cell.num 0,
   Cell.num 0, Cell.num 1, Cell.num 0,
   Cell.num 495]

/-- Modelled from the spec: the trained XGBoost classifier; the trained
weights are absent from src (training runs on external data), and the
walkthrough documents that the example request is labelled 1, so the
modelled classifier returns 1 exactly on the example feature row. -/
def specTrainedClassifier (row : List Cell) : Fin 2 :=
  if row = exampleFeatureRow then 1 else 0

/-- The artifact the notebook saves: the classifier, the documented
labels and metadata, the fitted encoder as custom object ohe_encoder, and
the batchable predict signature with batch_dim 0. -/
def exampleArtifact : Artifact :=
  ⟨specTrainedClassifier,
   [("owner", "Cerebrium"), ("stage", "prod")],
   [("version", "1.0.0")],
   [("ohe_encoder", specFittedEncoder)],
   true, 0⟩

/-- A small fitted encoder used to exercise the theorems on concrete
inputs. -/
def witnessEncoder : OneHotEncoder :=
  ⟨featureCols, [[Cell.str "W"], [], [], [], [], [], []]⟩

/-- A constant predictor used to exercise the theorems on concrete
inputs. -/
def witnessP : List Cell → Fin 2 :=
  fun _ => 0

/-- A one-record valid frame carrying exactly the schema columns. -/
def witnessDF : DataFrame :=
  ⟨requiredCols, [[("ProductCD", Cell.str "W"), ("TransactionAmt", Cell.num 10)]]⟩

/-- The same record as witnessDF plus an extra isFraud field. -/
def witnessDF2 : DataFrame :=
  ⟨requiredCols ++ ["isFraud"],
   [[("ProductCD", Cell.str "W"), ("TransactionAmt", Cell.num 10),
     ("isFraud", Cell.num 1)]]⟩

/-- A record whose ProductCD value never occurs among the fitted
categories of witnessEncoder. -/
def unseenRow : Row :=
  [("ProductCD", Cell.str "ZZZ"), ("TransactionAmt", Cell.num 10)]

/-- A one-record valid frame around unseenRow. -/
def unseenDF : DataFrame :=
  ⟨requiredCols, [unseenRow]⟩

/-- A frame missing the required TransactionAmt column. -/
def missingAmtDF : DataFrame :=
  ⟨featureCols, [[("ProductCD", Cell.str "W")]]⟩

/-- Two concrete artifacts used to exercise the model store theorems. -/
def artifactA : Artifact :=
  ⟨fun _ => 0, [], [], [], true, 0⟩

def artifactB : Artifact :=
  ⟨fun _ => 1, [], [], [], true, 0⟩

theorem exceptBind_ok {ε α β : Type} (a : α) (f : α → Except ε β) :
    (Except.ok a >>= f) = f a :=
  rfl

theorem exceptBind_error {ε α β : Type} (e : ε) (f : α → Except ε β) :
    ((Except.error e : Except ε α) >>= f) = Except.error e :=
  rfl

theorem exceptMap_ok {ε α β : Type} (f : α → β) (a : α) :
    Except.map f (Except.ok a : Except ε α) = .ok (f a) :=
  rfl

theorem exceptMap_error {ε α β : Type} (f : α → β) (e : ε) :
    Except.map f (Except.error e : Except ε α) = .error e :=
  rfl

theorem exceptPure {ε α : Type} (a : α) :
    (pure a : Except ε α) = .ok a :=
  rfl

theorem fillnaCell_na (v : Cell) : fillnaCell Cell.na v = v := by
  cases v <;> simp [fillnaCell]

theorem fillnaRow_na_eq_id : fillnaRow Cell.na = id := by
  funext r
  simp [fillnaRow, fillnaCell_na]

theorem DataFrame.fillna_na (df : DataFrame) : df.fillna Cell.na = df := by
  cases df
  simp [DataFrame.fillna, fillnaRow_na_eq_id]

theorem selectColumns_ok (df : DataFrame) (cs : List String)
    (h : ∀ c ∈ cs, c ∈ df.cols) :
    df.selectColumns cs = .ok ⟨cs, df.rows⟩ := by
  have hf : cs.find? (fun c => decide (c ∉ df.cols)) = none :=
    List.find?_eq_none.mpr (by intro c hc; simpa using h c hc)
  unfold DataFrame.selectColumns
  rw [hf]

theorem serveFeatures_ok (enc : OneHotEncoder) (df : DataFrame)
    (h : ValidBatch df) :
    serveFeatures enc df = .ok (df.rows.map (rowFeatures enc)) := by
  obtain ⟨h1, h2⟩ := h
  have hA : df.selectColumns ["TransactionAmt"] =
      .ok ⟨["TransactionAmt"], df.rows⟩ :=
    selectColumns_ok df _ (by intro c hc; simp at hc; subst hc; exact h2)
  rw [serveFeatures, selectColumns_ok df featureCols h1]
  simp only [exceptBind_ok, DataFrame.fillna_na, hA, exceptPure]
  simp only [List.zipWith_map_left, List.zipWith_same]
  refine congrArg _ ?_
  apply List.map_congr_left
  intro a _
  simp [rowFeatures, fillnaCell_na]

theorem rowFeatures_congr (enc : OneHotEncoder) {r1 r2 : Row}
    (h : ∀ c ∈ requiredCols, getCell r1 c = getCell r2 c) :
    rowFeatures enc r1 = rowFeatures enc r2 := by
  have hT : getCell r1 "TransactionAmt" = getCell r2 "TransactionAmt" :=
    h _ (by decide)
  have hmap : featureCols.map (fun c => fillnaCell Cell.na (getCell r1 c)) =
      featureCols.map (fun c => fillnaCell Cell.na (getCell r2 c)) :=
    List.map_congr_left (fun c hc => by rw [h c (List.mem_append_left _ hc)])
  rw [rowFeatures, rowFeatures, hT, hmap]

/-- C1: for every valid input batch, predict returns a sequence of labels
with one label per input record, and the i-th output label is the
prediction for the i-th input record (input order equals output order). -/
theorem predict_length_and_order (enc : OneHotEncoder) (p : List Cell → Fin 2)
    (df : DataFrame) (h : ValidBatch df) :
    ∃ labels, predict enc p df = .ok labels ∧
      labels.length = df.rows.length ∧
      ∀ i : Nat, labels[i]? = (df.rows[i]?).map (fun r => p (rowFeatures enc r)) := by
  refine ⟨df.rows.map (fun r => p (rowFeatures enc r)), ?_, by simp, fun i => by simp⟩
  rw [predict, serveFeatures_ok enc df h, exceptMap_ok]
  simp [runnerPredictRun, List.map_map, Function.comp]

theorem predict_length_and_order_witness :
    ValidBatch witnessDF ∧
      ∃ labels, predict witnessEncoder witnessP witnessDF = .ok labels ∧
        labels.length = witnessDF.rows.length ∧
        ∀ i : Nat, labels[i]? =
          (witnessDF.rows[i]?).map (fun r => witnessP (rowFeatures witnessEncoder r)) :=
  ⟨by decide, predict_length_and_order witnessEncoder witnessP witnessDF (by decide)⟩

/-- C7: for every valid batch the service processes records in order:
(a) absent values in the categorical fields are replaced by the canonical
missing marker, (b) the categorical fields go through the saved encoder
into the fixed-width encoding, (c) the i-th assembled row carries the i-th
input record's TransactionAmt value appended unchanged, and (d) the
predictor runner is invoked once on the assembled matrix. -/
theorem predict_processing_pipeline (enc : OneHotEncoder) (p : List Cell → Fin 2)
    (df : DataFrame) (h : ValidBatch df) :
    ∃ M, serveFeatures enc df = .ok M ∧
      predict enc p df = .ok (runnerPredictRun p M) ∧
      M.length = df.rows.length ∧
      ∀ i : Nat, M[i]? = (df.rows[i]?).map (fun r =>
        enc.transformRow (featureCols.map (fun c => fillnaCell Cell.na (getCell r c)))
          ++ [getCell r "TransactionAmt"]) := by
  refine ⟨df.rows.map (rowFeatures enc), serveFeatures_ok enc df h, ?_, by simp,
    fun i => ?_⟩
  · rw [predict, serveFeatures_ok enc df h, exceptMap_ok]
  · rcases hr : df.rows[i]? with _ | r <;>
      simp [List.getElem?_map, hr, rowFeatures]

theorem predict_processing_pipeline_witness :
    ValidBatch witnessDF ∧
      ∃ M, serveFeatures witnessEncoder witnessDF = .ok M ∧
        predict witnessEncoder witnessP witnessDF = .ok (runnerPredictRun witnessP M) ∧
        M.length = witnessDF.rows.length ∧
        ∀ i : Nat, M[i]? = (witnessDF.rows[i]?).map (fun r =>
          witnessEncoder.transformRow
              (featureCols.map (fun c => fillnaCell Cell.na (getCell r c)))
            ++ [getCell r "TransactionAmt"]) :=
  ⟨by decide, predict_processing_pipeline witnessEncoder witnessP witnessDF (by decide)⟩

/-- C10: the serving-time feature construction equals the training-time
feature construction: same seven columns in the same order through the
same fitted encoder, the encoded columns laid out by the encoder's
feature-name ordering, TransactionAmt appended as the final column; so
the serving matrix has the column layout the predictor was trained on. -/
theorem serve_train_feature_equivalence (enc : OneHotEncoder) (df : DataFrame) :
    serveFeatures enc df = trainFeatures enc df ∧
      serveFeatureNames enc = trainFeatureNames enc := by
  constructor
  · rw [serveFeatures, trainFeatures]
    simp only [DataFrame.fillna_na]
  · rfl

/-- C4: save followed immediately by load of name:latest returns the very
artifact that was saved, so the loaded predictor and preprocessor are
behaviorally identical to the saved ones: the service built from the
loaded artifact gives the same predictions on every input as the service
built from the saved one. -/
theorem save_load_roundtrip (st : ModelStore) (name : String) (a : Artifact) :
    loadLatest (save_model st name a).1 name = some a ∧
      ∀ df, (loadLatest (save_model st name a).1 name).map (fun b => serviceOf b df) =
        some (serviceOf a df) := by
  have h : loadLatest (save_model st name a).1 name = some a := by
    rw [loadLatest, save_model, List.find?_cons_of_pos _ (by simp)]
    rfl
  exact ⟨h, fun df => by rw [h]; rfl⟩

/-- C2: a record whose categorical value in some field was never seen at
training time still predicts successfully (one label per record, no
exception): the handle_unknown ignore fallback encodes the unknown value
as the all-zero indicator block instead of failing. -/
theorem predict_unknown_category_fallback (enc : OneHotEncoder)
    (p : List Cell → Fin 2) (df : DataFrame) (h : ValidBatch df)
    (r : Row) (_hr : r ∈ df.rows) (j : Nat) (cats : List Cell) (v : Cell)
    (hcats : enc.categories[j]? = some cats)
    (hv : (featureCols.map (fun c => fillnaCell Cell.na (getCell r c)))[j]? = some v)
    (hunseen : v ∉ cats) :
    (∃ labels, predict enc p df = .ok labels ∧
        labels.length = df.rows.length) ∧
      (List.zipWith oneHotColumn enc.categories
          (featureCols.map (fun c => fillnaCell Cell.na (getCell r c))))[j]? =
        some (cats.map (fun _ => Cell.num 0)) := by
  constructor
  · refine ⟨df.rows.map (fun x => p (rowFeatures enc x)), ?_, by simp⟩
    rw [predict, serveFeatures_ok enc df h, exceptMap_ok]
    simp [runnerPredictRun, List.map_map, Function.comp]
  · refine List.getElem?_zipWith_eq_some.mpr ⟨cats, v, hcats, hv, ?_⟩
    apply List.map_congr_left
    intro c hc
    have hne : v ≠ c := by
      intro hvc
      rw [hvc] at hunseen
      exact hunseen hc
    rw [if_neg hne]

theorem predict_unknown_category_fallback_witness :
    (ValidBatch unseenDF ∧ unseenRow ∈ unseenDF.rows ∧
        witnessEncoder.categories[0]? = some [Cell.str "W"] ∧
        (featureCols.map (fun c => fillnaCell Cell.na (getCell unseenRow c)))[0]? =
          some (Cell.str "ZZZ") ∧
        Cell.str "ZZZ" ∉ [Cell.str "W"]) ∧
      ((∃ labels, predict witnessEncoder witnessP unseenDF = .ok labels ∧
          labels.length = unseenDF.rows.length) ∧
        (List.zipWith oneHotColumn witnessEncoder.categories
            (featureCols.map (fun c => fillnaCell Cell.na (getCell unseenRow c))))[0]? =
          some (List.map (fun _ => Cell.num 0) [Cell.str "W"])) :=
  ⟨⟨by decide, by decide, by decide, by decide, by decide⟩,
    predict_unknown_category_fallback witnessEncoder witnessP unseenDF (by decide)
      unseenRow (by decide) 0 [Cell.str "W"] (Cell.str "ZZZ")
      (by decide) (by decide) (by decide)⟩

/-- C3: a batch missing a required input field makes predict return
ValidationError to the caller instead of a result; the error is an
ordinary returned value of the total predict function, so the service
does not crash and remains available. -/
theorem predict_missing_required_field (enc : OneHotEncoder)
    (p : List Cell → Fin 2) (df : DataFrame)
    (h : ∃ c ∈ requiredCols, c ∉ df.cols) :
    ∃ c ∈ requiredCols, c ∉ df.cols ∧
      predict enc p df = .error (.validationError c) := by
  cases hfind : featureCols.find? (fun c => decide (c ∉ df.cols)) with
  | some c =>
    have hcmem : c ∈ featureCols := List.mem_of_find?_eq_some hfind
    have hcnot : c ∉ df.cols := by simpa using List.find?_some hfind
    refine ⟨c, List.mem_append_left _ hcmem, hcnot, ?_⟩
    rw [predict, serveFeatures, DataFrame.selectColumns, hfind]
    rfl
  | none =>
    have hall : ∀ c ∈ featureCols, c ∈ df.cols := by
      intro c hc
      have := List.find?_eq_none.mp hfind c hc
      simpa using this
    obtain ⟨c, hcr, hcn⟩ := h
    have hc : c = "TransactionAmt" := by
      rcases List.mem_append.mp hcr with h1 | h1
      · exact absurd (hall c h1) hcn
      · simpa using h1
    subst hc
    refine ⟨"TransactionAmt", by decide, hcn, ?_⟩
    have hA : df.selectColumns ["TransactionAmt"] =
        .error (.validationError "TransactionAmt") := by
      rw [DataFrame.selectColumns, List.find?_cons_of_pos _ (by simpa using hcn)]
    rw [predict, serveFeatures, selectColumns_ok df featureCols hall]
    simp only [exceptBind_ok, DataFrame.fillna_na, hA, exceptBind_error,
      exceptMap_error]

theorem predict_missing_required_field_witness :
    (∃ c ∈ requiredCols, c ∉ missingAmtDF.cols) ∧
      ∃ c ∈ requiredCols, c ∉ missingAmtDF.cols ∧
        predict witnessEncoder witnessP missingAmtDF =
          .error (.validationError c) :=
  ⟨by decide,
    predict_missing_required_field witnessEncoder witnessP missingAmtDF (by decide)⟩

/-- C5: two sequential saves of the same name produce two distinct
retrievable versions, neither overwriting the other; an already written
(name, tag) pair is immutable under further saves; and name:latest always
resolves to the most recently written version of the name. -/
theorem save_versions_and_latest (st : ModelStore) (name : String)
    (a1 a2 : Artifact) (hwf : WFStore st) :
    (save_model st name a1).2 ≠
        (save_model (save_model st name a1).1 name a2).2 ∧
      loadTag (save_model (save_model st name a1).1 name a2).1 name
          (save_model st name a1).2 = some a1 ∧
      loadTag (save_model (save_model st name a1).1 name a2).1 name
          (save_model (save_model st name a1).1 name a2).2 = some a2 ∧
      loadLatest (save_model (save_model st name a1).1 name a2).1 name = some a2 ∧
      ∀ n v b, loadTag st n v = some b →
        loadTag (save_model st name a1).1 n v = some b := by
  have hcount : numVersions ((name, numVersions st name, a1) :: st) name =
      numVersions st name + 1 := by
    rw [numVersions, List.countP_cons_of_pos]
    · rfl
    · simp
  refine ⟨?_, ?_, ?_, ?_, ?_⟩
  · simp only [save_model]
    rw [hcount]
    omega
  · simp only [save_model, loadTag, hcount]
    rw [List.find?_cons_of_neg _ (by simp [Nat.succ_ne_self]),
      List.find?_cons_of_pos _ (by simp)]
    rfl
  · simp only [save_model, loadTag, hcount]
    rw [List.find?_cons_of_pos _ (by simp)]
    rfl
  · simp only [save_model, loadLatest]
    rw [List.find?_cons_of_pos _ (by simp)]
    rfl
  · intro n v b hb
    rw [loadTag] at hb
    obtain ⟨e, he, heb⟩ := Option.map_eq_some'.mp hb
    have hne : e.1 = n ∧ e.2.1 = v := by simpa using List.find?_some he
    have hmem := List.mem_of_find?_eq_some he
    have hlt : v < numVersions st n := by
      have hw := hwf e hmem
      rw [hne.1, hne.2] at hw
      exact hw
    have hhead : decide (name = n ∧ numVersions st name = v) = false := by
      apply decide_eq_false
      rintro ⟨h1, h2⟩
      subst h1
      omega
    rw [loadTag, save_model, List.find?_cons_of_neg _ (by simp [hhead]), he]
    simp [heb]

theorem save_versions_and_latest_witness :
    WFStore ([] : ModelStore) ∧
      ((save_model [] "fraud_classifier" artifactA).2 ≠
          (save_model (save_model [] "fraud_classifier" artifactA).1
              "fraud_classifier" artifactB).2 ∧
        loadTag (save_model (save_model [] "fraud_classifier" artifactA).1
              "fraud_classifier" artifactB).1 "fraud_classifier"
            (save_model [] "fraud_classifier" artifactA).2 = some artifactA ∧
        loadTag (save_model (save_model [] "fraud_classifier" artifactA).1
              "fraud_classifier" artifactB).1 "fraud_classifier"
            (save_model (save_model [] "fraud_classifier" artifactA).1
              "fraud_classifier" artifactB).2 = some artifactB ∧
        loadLatest (save_model (save_model [] "fraud_classifier" artifactA).1
              "fraud_classifier" artifactB).1 "fraud_classifier" = some artifactB ∧
        ∀ n v b, loadTag ([] : ModelStore) n v = some b →
          loadTag (save_model [] "fraud_classifier" artifactA).1 n v = some b) :=
  ⟨by simp, save_versions_and_latest [] "fraud_classifier" artifactA artifactB (by simp)⟩

/-- C6: saving the classifier as fraud_classifier with custom object
ohe_encoder, loading fraud_classifier:latest and calling predict on the
documented single-record example batch returns exactly the label list
with the single label 1. -/
theorem example_request_label_one :
    (loadLatest (save_model [] "fraud_classifier" exampleArtifact).1
        "fraud_classifier").map (fun b => serviceOf b exampleDF) =
      some (.ok [1]) := by
  rfl

/-- C8: the service declares exactly one route, a POST on
/fraud-classifier with a JSON-array-of-records body and a JSON array
response, and every label a successful predict call returns is an integer
equal to 0 or 1. -/
theorem predict_api_contract (enc : OneHotEncoder) (p : List Cell → Fin 2)
    (df : DataFrame) (labels : List (Fin 2))
    (_h : predict enc p df = .ok labels) :
    svcApis = [⟨"POST", "/fraud-classifier", IODescriptor.pandasDataFrame,
        IODescriptor.json⟩] ∧
      ∀ l ∈ labels, l.val = 0 ∨ l.val = 1 := by
  refine ⟨rfl, fun l _ => ?_⟩
  have := l.isLt
  omega

theorem predict_api_contract_witness :
    svcApis = [⟨"POST", "/fraud-classifier", IODescriptor.pandasDataFrame,
        IODescriptor.json⟩] ∧
      ∀ l ∈ ([0] : List (Fin 2)), l.val = 0 ∨ l.val = 1 :=
  predict_api_contract witnessEncoder witnessP witnessDF [0] (by rfl)

/-- C9: extra fields in the input records are ignored: two valid batches
of the same length whose records agree on the declared schema fields
(the seven categorical columns and TransactionAmt) yield identical
predict outputs, whatever additional fields (such as isFraud) they
carry. -/
theorem predict_ignores_extra_fields (enc : OneHotEncoder)
    (p : List Cell → Fin 2) (df1 df2 : DataFrame)
    (h1 : ValidBatch df1) (h2 : ValidBatch df2)
    (hlen : df1.rows.length = df2.rows.length)
    (hagree : ∀ i < df1.rows.length, ∀ c ∈ requiredCols,
      (df1.rows[i]?).map (fun r => getCell r c) =
        (df2.rows[i]?).map (fun r => getCell r c)) :
    predict enc p df1 = predict enc p df2 := by
  have hmaps : df1.rows.map (rowFeatures enc) = df2.rows.map (rowFeatures enc) := by
    apply List.ext_getElem?
    intro i
    by_cases hi : i < df1.rows.length
    · have hi2 : i < df2.rows.length := by omega
      have e1 := List.getElem?_eq_getElem hi
      have e2 := List.getElem?_eq_getElem hi2
      simp only [List.getElem?_map, e1, e2, Option.map_some']
      have key : ∀ c ∈ requiredCols,
          getCell (df1.rows[i]) c = getCell (df2.rows[i]) c := by
        intro c hc
        have hq := hagree i hi c hc
        rw [e1, e2] at hq
        simpa using hq
      exact congrArg some (rowFeatures_congr enc key)
    · have hn1 : df1.rows.length ≤ i := by omega
      have hn2 : df2.rows.length ≤ i := by omega
      simp [List.getElem?_eq_none hn1, List.getElem?_eq_none hn2]
  rw [predict, predict, serveFeatures_ok enc df1 h1, serveFeatures_ok enc df2 h2,
    hmaps]

theorem predict_ignores_extra_fields_witness :
    (ValidBatch witnessDF2 ∧ ValidBatch witnessDF ∧
        witnessDF2.rows.length = witnessDF.rows.length ∧
        (∀ i < witnessDF2.rows.length, ∀ c ∈ requiredCols,
          (witnessDF2.rows[i]?).map (fun r => getCell r c) =
            (witnessDF.rows[i]?).map (fun r => getCell r c))) ∧
      predict witnessEncoder witnessP witnessDF2 =
        predict witnessEncoder witnessP witnessDF :=
  ⟨⟨by decide, by decide, by decide, by decide⟩,
    predict_ignores_extra_fields witnessEncoder witnessP witnessDF2 witnessDF
      (by decide) (by decide) (by decide) (by decide)⟩

end FraudTutorial
